import Mathlib

/-!
Shallow embedding of the zellij-bookmarks core (src/main.rs, src/filters.rs,
src/render.rs): the bookmark/label data model, catalog deserialization,
the filter predicates, the viewport-window arithmetic of the renderer, and
the recursive command-resolution engine, together with theorems checking the
natural-language specification against these definitions.

Rust `HashMap<String, String>` values are modelled as association lists where
the first matching key wins on lookup; `HashMap::extend` (argument wins) is
therefore list append with the overriding entries in front.  Rust
`HashSet<String>` is modelled as a `List String` used as a set.
-/

namespace ZB

/-- A bookmark record (struct `Bookmark` in src/main.rs). -/
structure Bookmark where
  id : Nat
  name : String
  desc : String
  cmds : List String
  labels : List String
  vars : List (String × String)
  exec : Option Bool
  deriving Repr, DecidableEq

/-- A label record (struct `Label` in src/main.rs). -/
structure Label where
  id : Nat
  name : String
  deriving Repr, DecidableEq

/-- The parsed configuration (struct `Config` in src/main.rs): global
variables, the global command-macro table `cmds`, and the bookmark list. -/
structure Config where
  vars : List (String × String)
  cmds : List (String × String)
  bookmarks : List Bookmark
  deriving Repr, DecidableEq

/-- Model of `HashMap` lookup on the association-list model: first match wins. -/
def lookupVar (vs : List (String × String)) (k : String) : Option String :=
  (vs.find? (fun p => p.1 = k)).map (fun p => p.2)

/-- Model of `a.extend(b)`: entries of `b` overwrite entries of `a`.  With
first-match-wins lookup this is `b ++ a`. -/
def extendVars (a b : List (String × String)) : List (String × String) :=
  b ++ a

/-- Substring test: Rust `str::contains` (`hay.contains(needle)`). -/
def containsSub (hay needle : List Char) : Bool :=
  if needle.isPrefixOf hay then true
  else
    match hay with
    | [] => false
    | _ :: t => containsSub t needle

/-- Rust `str::starts_with`: `s.starts_with(p)`. -/
def startsWith (s p : String) : Bool :=
  p.data.isPrefixOf s.data

/-- Rust `str::to_lowercase`, modelled character-wise (ASCII case folding,
which covers every string this program compares). -/
def lowerStr (s : String) : String :=
  ⟨s.data.map Char.toLower⟩

namespace Filters

/-- Filter mode (enum `Mode` in src/filters.rs); `Name` is the default. -/
inductive Mode where
  | Name
  | ID
  | Label
  deriving Repr, DecidableEq

instance : Inhabited Mode := ⟨Mode.Name⟩

/-- Rust `Mode::switch_to` from src/filters.rs: switch to `mode`, unless the
current mode already equals it, in which case revert to the default. -/
def Mode.switch_to (self mode : Mode) : Mode :=
  if self = mode then Mode.Name else mode

/-- Struct `LabelFilter` (src/filters.rs). -/
structure LabelFilter where
  mode : Mode
  filter : String
  ignore_case : Bool

/-- Rust `LabelFilter::keep_by_name` (src/filters.rs). -/
def LabelFilter.keep_by_name (f : LabelFilter) (label : Label) : Bool :=
  if f.filter.isEmpty then true
  else
    let fl := if f.ignore_case then lowerStr f.filter else f.filter
    let l := if f.ignore_case then lowerStr label.name else label.name
    l = fl || containsSub l.data fl.data

/-- Rust `LabelFilter::keep_by_id` (src/filters.rs). -/
def LabelFilter.keep_by_id (f : LabelFilter) (label : Label) : Bool :=
  startsWith (toString label.id) f.filter

/-- Rust `impl Filter<Label> for LabelFilter` (src/filters.rs): ID mode uses the
id match, every other mode falls back to the name match. -/
def LabelFilter.keep (f : LabelFilter) (label : Label) : Bool :=
  match f.mode with
  | Mode.ID => f.keep_by_id label
  | _ => f.keep_by_name label

/-- Struct `BookmarkFilter` (src/filters.rs). -/
structure BookmarkFilter where
  mode : Mode
  filter : String
  ignore_case : Bool

/-- Rust `BookmarkFilter::get_filter` (src/filters.rs). -/
def BookmarkFilter.get_filter (f : BookmarkFilter) : String :=
  if f.ignore_case then lowerStr f.filter else f.filter

/-- Rust `BookmarkFilter::keep_by_label` (src/filters.rs): exact equality against
at least one label, after optional case normalization. -/
def BookmarkFilter.keep_by_label (f : BookmarkFilter) (b : Bookmark) : Bool :=
  let filter := f.get_filter
  if filter.isEmpty then true
  else
    b.labels.any (fun label =>
      let fl := if f.ignore_case then lowerStr filter else filter
      let l := if f.ignore_case then lowerStr label else label
      fl = l)

/-- Rust `BookmarkFilter::keep_by_name` (src/filters.rs). -/
def BookmarkFilter.keep_by_name (f : BookmarkFilter) (b : Bookmark) : Bool :=
  let filter := if f.ignore_case then lowerStr f.get_filter else f.get_filter
  let name := if f.ignore_case then lowerStr b.name else b.name
  name = filter || containsSub name.data filter.data

/-- Rust `BookmarkFilter::keep_by_id` (src/filters.rs). -/
def BookmarkFilter.keep_by_id (f : BookmarkFilter) (b : Bookmark) : Bool :=
  startsWith (toString b.id) f.filter

/-- Rust `impl Filter<Bookmark> for BookmarkFilter` (src/filters.rs). -/
def BookmarkFilter.keep (f : BookmarkFilter) (b : Bookmark) : Bool :=
  match f.mode with
  | Mode.Name => f.keep_by_name b
  | Mode.ID => f.keep_by_id b
  | Mode.Label => f.keep_by_label b

end Filters

/-! ### Catalog deserialization (src/main.rs, `deserialize_bookmarks`) -/

/-- The loop body of `deserialize_bookmarks`: walk the decoded bookmark list,
dropping bookmarks whose name was already seen (counting them) and assigning
`id = i + 1` (position in the original list) to the kept ones.  Returns
(kept bookmarks, duplicate count, final seen-set). -/
def dedupLoop (uniq : List String) (i : Nat) :
    List Bookmark → (List Bookmark × Nat × List String)
  | [] => ([], 0, uniq)
  | bk :: rest =>
    if bk.name ∈ uniq then
      let r := dedupLoop uniq (i + 1) rest
      (r.1, r.2.1 + 1, r.2.2)
    else
      let r := dedupLoop (bk.name :: uniq) (i + 1) rest
      ({ bk with id := i + 1 } :: r.1, r.2.1, r.2.2)

/-- Rust `deserialize_bookmarks` (src/main.rs): reject the whole list when any
duplicate name exists, reporting the duplicate count; otherwise return the
bookmarks with ids assigned. -/
def deserialize_bookmarks (l : List Bookmark) : Except String (List Bookmark) :=
  let r := dedupLoop [] 0 l
  if r.2.1 > 0 then
    Except.error ("Duplicate bookmarks names: " ++ toString r.2.1)
  else
    Except.ok r.1

/-- The label-derivation loop of `State::load_config` (src/main.rs): walk all
labels of all bookmarks in order, keeping the first occurrence of each name
and numbering them from `nextId`. -/
def buildLabelsLoop (seen : List String) (nextId : Nat) : List String → List Label
  | [] => []
  | nm :: rest =>
    if nm ∈ seen then buildLabelsLoop seen nextId rest
    else ⟨nextId, nm⟩ :: buildLabelsLoop (nm :: seen) (nextId + 1) rest

/-- Derived label list of `State::load_config` (src/main.rs, lines 240-250):
distinct label names in first-occurrence order, ids starting at 1. -/
def buildLabels (bs : List Bookmark) : List Label :=
  buildLabelsLoop [] 1 (bs.map (fun b => b.labels)).flatten

/-- Specification-side first-occurrence deduplication: keep each name's first
occurrence, in order.  Used to compare `buildLabels` against the spec. -/
def firstOccur : List String → List String
  | [] => []
  | n :: rest => n :: (firstOccur rest).filter (fun m => m ≠ n)

/-- Specification-side id assignment: the bookmark at position `j` (0-based)
of the decoded list receives id `i + j + 1`.  Used to compare
`deserialize_bookmarks` against the spec. -/
def assignIds (i : Nat) : List Bookmark → List Bookmark
  | [] => []
  | bk :: rest => { bk with id := i + 1 } :: assignIds (i + 1) rest

/-! ### The List Manager state touched by `load_config` -/

/-- Modelled from the spec: `TabManager` lives in src/tab_manager.rs, which is
not among the provided sources.  Per the spec's List Manager contract,
`construct(catalog)` sets the filtered view to the full catalog and the
cursor to 0. -/
structure TabManager (T : Type) where
  all : List T
  filtered : List T
  cursor : Nat
  deriving Repr, DecidableEq

/-- Modelled from the spec: List Manager construction (`TabManager::new`). -/
def TabManager.new {T : Type} (catalog : List T) : TabManager T :=
  ⟨catalog, catalog, 0⟩

/-- The fields of `State` (src/main.rs) that `load_config` reads or writes. -/
structure StateCore where
  exec : Bool
  config : Config
  bookmarks_mgr : TabManager Bookmark
  labels_mgr : TabManager Label
  deriving Repr, DecidableEq

/-- Rust `State::load_config` (src/main.rs): file reading and YAML decoding are
external effects, modelled by the `content` argument (the read result) and
the `parse` argument (serde_yaml decoding, which includes
`deserialize_bookmarks`).  On any error the state is returned untouched;
on success the label manager, bookmark manager and config are replaced. -/
def load_config (st : StateCore) (content : Except String String)
    (parse : String → Except String Config) : StateCore × Except String Unit :=
  match content with
  | Except.error e => (st, Except.error e)
  | Except.ok text =>
    match parse text with
    | Except.error e => (st, Except.error e)
    | Except.ok config =>
      ({ st with
          labels_mgr := TabManager.new (buildLabels config.bookmarks)
          bookmarks_mgr := TabManager.new config.bookmarks
          config := config },
       Except.ok ())

/-! ### Template rendering (handlebars, external crate) -/

/-- Scan for the closing `\x7d\x7d` of a placeholder, returning the
placeholder name and the remainder after the close. -/
def findClose : List Char → Option (List Char × List Char)
  | [] => none
  | '\x7d' :: '\x7d' :: rest => some ([], rest)
  | c :: rest => (findClose rest).map (fun p => (c :: p.1, p.2))

/-- Modelled from the spec: the template engine (the external handlebars
crate) renders a literal template by substituting `\x7b\x7bname\x7d\x7d`
placeholders with values from the variable mapping, a missing variable
rendering as the empty string, and fails on malformed (unclosed) placeholder
syntax.  Fuelled by the input length, which bounds the recursion depth. -/
def renderVarsAux (vs : List (String × String)) : Nat → List Char → Except String (List Char)
  | 0, _ => Except.error "Template rendering error: depth exceeded"
  | _, [] => Except.ok []
  | fuel + 1, '\x7b' :: '\x7b' :: rest =>
    match findClose rest with
    | none => Except.error "Template rendering error: unclosed placeholder"
    | some (nm, rest') =>
      match renderVarsAux vs fuel rest' with
      | Except.error e => Except.error e
      | Except.ok out => Except.ok (((lookupVar vs ⟨nm⟩).getD "").data ++ out)
  | fuel + 1, c :: rest =>
    match renderVarsAux vs fuel rest with
    | Except.error e => Except.error e
    | Except.ok out => Except.ok (c :: out)

/-- Modelled from the spec: whole-template rendering (handlebars
`render_template`). -/
def render_template (vs : List (String × String)) (template : String) :
    Except String String :=
  (renderVarsAux vs (template.length + 1) template.data).map (fun l => ⟨l⟩)

/-- Rust `str::trim_start().trim_end()`: drop leading and trailing
whitespace. -/
def trimL (l : List Char) : List Char :=
  ((l.dropWhile Char.isWhitespace).reverse.dropWhile Char.isWhitespace).reverse

/-! ### Command resolution (src/main.rs, `State::gen_template_command`,
`State::gen_template_with_vars`, `State::gen_command`) -/

/-- Rust `State::gen_template_with_vars`: render a template against the global
vars overlaid with the bookmark's vars (bookmark wins), trimming the
result. -/
def gen_template_with_vars (cfg : Config) (template : String) (bookmark : Bookmark) :
    Except String String :=
  let vars := extendVars cfg.vars bookmark.vars
  (render_template vars template).map (fun s => ⟨trimL s.data⟩)

/-- The `"bookmark::"` reserved marker. -/
def bookmarkMarker : List Char := "bookmark::".data

/-- The `"cmd::"` reserved marker. -/
def cmdMarker : List Char := "cmd::".data

/-- Rust `str::strip_prefix`: remove a leading marker if present. -/
def stripMarker : List Char → List Char → Option (List Char)
  | [], rest => some rest
  | _ :: _, [] => none
  | m :: ms, c :: cs => if m = c then stripMarker ms cs else none

/-- The line-joining separator of `gen_template_command`. -/
def cmdSep : String := " \\\n&& "

/-- The token loop of `gen_template_command` (src/main.rs): resolve each
command token in order (bookmark reference, macro reference, or literal
template), threading the visited set, and collect the resolved lines.  The
recursive expansion of a referenced bookmark is abstracted into the
`resolve` argument, which `gen_template_command` instantiates with itself. -/
def gen_cmds (resolve : Bookmark → List String → Except String (String × List String))
    (cfg : Config) (bookmark : Bookmark) :
    List String → List String → Except String (List String × List String)
  | [], processed => Except.ok ([], processed)
  | cmd :: rest, processed =>
    match stripMarker bookmarkMarker cmd.data with
    | some depName =>
      match cfg.bookmarks.find? (fun b => b.name = String.mk depName) with
      | some dep =>
        match resolve { dep with vars := extendVars dep.vars bookmark.vars } processed with
        | Except.error e => Except.error e
        | Except.ok (s, processed') =>
          match gen_cmds resolve cfg bookmark rest processed' with
          | Except.error e => Except.error e
          | Except.ok (ls, p2) => Except.ok (s :: ls, p2)
      | none => Except.error ("Bookmark '" ++ String.mk depName ++ "' not found")
    | none =>
      match stripMarker cmdMarker cmd.data with
      | some key =>
        match lookupVar cfg.cmds (String.mk key) with
        | some v =>
          match gen_template_with_vars cfg v bookmark with
          | Except.error e => Except.error e
          | Except.ok s =>
            match gen_cmds resolve cfg bookmark rest processed with
            | Except.error e => Except.error e
            | Except.ok (ls, p2) => Except.ok (s :: ls, p2)
        | none => Except.error ("Command key '" ++ String.mk key ++ "' not found in cmds")
      | none =>
        match gen_template_with_vars cfg cmd bookmark with
        | Except.error e => Except.error e
        | Except.ok s =>
          match gen_cmds resolve cfg bookmark rest processed with
          | Except.error e => Except.error e
          | Except.ok (ls, p2) => Except.ok (s :: ls, p2)

/-- Rust `State::gen_template_command` (src/main.rs): check-and-insert the
bookmark's name into the visited set (failing with the circular-dependency
error when already present), resolve each token of `cmds`, and join the
resolved lines with `cmdSep`.  The Rust recursion needs no fuel (the visited
set bounds its depth); the `fuel` argument only makes the recursion
structural and is chosen large enough by `gen_command`.  Returns the joined
string together with the final visited set (the Rust code mutates the set
through a `&mut` borrow). -/
def gen_template_command (cfg : Config) : Nat → Bookmark → List String →
    Except String (String × List String)
  | 0, _, _ => Except.error "recursion fuel exhausted"
  | fuel + 1, bookmark, processed =>
    if bookmark.name ∈ processed then
      Except.error ("Circular dependency detected for bookmark '" ++ bookmark.name ++ "'")
    else
      match gen_cmds (gen_template_command cfg fuel) cfg bookmark
          bookmark.cmds (bookmark.name :: processed) with
      | Except.error e => Except.error e
      | Except.ok (lines, processed') =>
        Except.ok (cmdSep.intercalate lines, processed')

/-- Rust `State::gen_command` (src/main.rs): resolve the selected bookmark with a
fresh visited set, then append a trailing newline exactly when the effective
auto-submit flag (`bookmark.exec`, defaulting to the state's `exec`) is
true.  The fuel `cfg.bookmarks.length + 2` exceeds the maximal visited-set
growth, so it is never exhausted on the paths the Rust code can take. -/
def gen_command (cfg : Config) (execDefault : Bool) (bookmark : Bookmark) :
    Except String String :=
  match gen_template_command cfg (cfg.bookmarks.length + 2) bookmark [] with
  | Except.error e => Except.error e
  | Except.ok (cmd, _) =>
    let ex := bookmark.exec.getD execDefault
    Except.ok (if ex then cmd ++ "\n" else cmd)

/-! ### Viewport-window arithmetic (src/render.rs) -/

/-- Constant `RESERVE_ROW_COUNT` (src/main.rs). -/
def RESERVE_ROW_COUNT : Nat := 5

/-- Rust `main_menu_size` (src/render.rs): (x, y, width, height), with height the
row count minus the reserved rows (saturating). -/
def main_menu_size (rows cols : Nat) : Nat × Nat × Nat × Nat :=
  (0, 0, cols, rows - RESERVE_ROW_COUNT)

/-- The visible-range computation of `render_main_menu` (src/render.rs):
tail window pinned to the cursor when `selected ≥ height`, else the head
window `[0, height − 1]`. -/
def windowBounds (selected height : Nat) : Nat × Nat :=
  if selected ≥ height then (selected + 1 - height, selected) else (0, height - 1)

/-- Rust `render_right_counter` (src/render.rs): the "+N more" figure actually
displayed; a zero count renders nothing (displayed figure 0). -/
def rightCounter (count : Nat) : Nat :=
  if count = 0 then 0 else count

/-- Rust `render_right_counter_with_max` (src/render.rs): skipped when the count
equals the maximum. -/
def rightCounterWithMax (count maxCount : Nat) : Nat :=
  if count = maxCount then 0 else rightCounter count

/-- Hidden-above figure of `render_main_menu`: the window's begin index. -/
def hiddenAbove (b : Nat) : Nat := rightCounter b

/-- Hidden-below figure of `render_main_menu`: `count - 1 - end` displayed
only when `count > end`. -/
def hiddenBelow (count e : Nat) : Nat :=
  if count > e then rightCounterWithMax (count - 1 - e) count else 0

/-- The filtered-view indices the row loop of `render_main_menu` actually
draws: iterator indices `i < len` with `begin ≤ i` (skip) and `i ≤ end`
(break). -/
def visibleIndices (len b e : Nat) : List Nat :=
  (List.range len).filter (fun i => decide (b ≤ i) && decide (i ≤ e))

/-! ### Concrete example fixtures -/

/-- Diamond catalog: A references B and C; B and C each reference D. -/
def exD : Bookmark := ⟨4, "D", "", ["echo hi"], [], [], none⟩

/-- See `exD`. -/
def exB : Bookmark := ⟨2, "B", "", ["bookmark::D"], [], [], none⟩

/-- See `exD`. -/
def exC : Bookmark := ⟨3, "C", "", ["bookmark::D"], [], [], none⟩

/-- See `exD`. -/
def exA : Bookmark := ⟨1, "A", "", ["bookmark::B", "bookmark::C"], [], [], none⟩

/-- The diamond catalog of `exA`/`exB`/`exC`/`exD`. -/
def diamondCfg : Config := ⟨[], [], [exA, exB, exC, exD]⟩

/-- B with a template line `echo \x7b\x7by\x7d\x7d`. -/
def refB : Bookmark := ⟨2, "B", "", ["echo \x7b\x7by\x7d\x7d"], [], [], none⟩

/-- A referencing B while supplying the variable `y`. -/
def refA : Bookmark := ⟨1, "A", "", ["bookmark::B"], [], [("y", "z")], none⟩

/-- Catalog holding `refA` and `refB`. -/
def refCfg : Config := ⟨[], [], [refA, refB]⟩

/-- A bookmark named "deploy" carrying the label "dev". -/
def devBookmark : Bookmark := ⟨1, "deploy", "", [], ["dev"], [], none⟩

/-- A bookmark with two literal lines and `exec = some true`. -/
def twoLineBk : Bookmark := ⟨1, "T", "", ["echo a", "echo b"], [], [], some true⟩

/-- Catalog holding `twoLineBk`. -/
def twoLineCfg : Config := ⟨[], [], [twoLineBk]⟩

/-- An initial state for the reload examples. -/
def stExample : StateCore := ⟨false, ⟨[], [], []⟩, TabManager.new [], TabManager.new []⟩

/-! ## Helper lemmas -/

theorem isPrefixOf_nil_left (l : List Char) : ([] : List Char).isPrefixOf l = true := by
  cases l <;> rfl

theorem containsSub_nil (hay : List Char) : containsSub hay [] = true := by
  cases hay <;> simp [containsSub, List.isPrefixOf]

theorem toNat_ofNat_small (n : Nat) (h : n < 55296) : (Char.ofNat n).toNat = n := by
  have hv : n.isValidChar := Or.inl h
  rw [Char.ofNat, dif_pos hv]
  simp [Char.ofNatAux, Char.toNat, UInt32.toNat]

theorem char_toLower_idem (c : Char) : c.toLower.toLower = c.toLower := by
  unfold Char.toLower
  by_cases h : c.toNat ≥ 65 ∧ c.toNat ≤ 90
  · rw [if_pos h]
    have h32 : (Char.ofNat (c.toNat + 32)).toNat = c.toNat + 32 :=
      toNat_ofNat_small _ (by omega)
    rw [if_neg]
    rw [h32]
    omega
  · rw [if_neg h, if_neg h]

theorem lowerStr_idem (s : String) : lowerStr (lowerStr s) = lowerStr s := by
  unfold lowerStr
  refine congrArg String.mk ?_
  show (s.data.map Char.toLower).map Char.toLower = s.data.map Char.toLower
  rw [List.map_map]
  exact List.map_congr_left (fun c _ => char_toLower_idem c)

theorem lowerStr_eq_empty_iff (s : String) : lowerStr s = "" ↔ s = "" := by
  unfold lowerStr
  constructor
  · intro h
    have hd : s.data.map Char.toLower = [] := congrArg String.data h
    have : s.data = [] := List.map_eq_nil_iff.mp hd
    cases s
    simp_all
  · intro h
    subst h
    rfl

/-! ## Claims -/

/-- C7: with empty filter text, every entity (bookmark or label) is kept by
the filter predicate, in every mode and for every case-sensitivity
setting. -/
theorem claim_C7 (mode : Filters.Mode) (ign : Bool) (b : Bookmark) (lab : Label) :
    Filters.BookmarkFilter.keep ⟨mode, "", ign⟩ b = true ∧
    Filters.LabelFilter.keep ⟨mode, "", ign⟩ lab = true := by
  constructor
  · cases mode <;> cases ign <;>
      simp [Filters.BookmarkFilter.keep, Filters.BookmarkFilter.keep_by_name,
        Filters.BookmarkFilter.keep_by_id, Filters.BookmarkFilter.keep_by_label,
        Filters.BookmarkFilter.get_filter, lowerStr, startsWith, containsSub_nil,
        isPrefixOf_nil_left, String.isEmpty_iff]
  · cases mode <;> cases ign <;>
      simp [Filters.LabelFilter.keep, Filters.LabelFilter.keep_by_name,
        Filters.LabelFilter.keep_by_id, lowerStr, startsWith,
        containsSub_nil, isPrefixOf_nil_left, String.isEmpty_iff]

/-- C8: `switch_to(X)` applied to mode `m` yields `X` when `m ≠ X` and the
default mode `Name` when `m = X`; applying `switch_to(X)` twice starting
from the default returns to the default, for every `X`. -/
theorem claim_C8 (m x : Filters.Mode) :
    (m ≠ x → Filters.Mode.switch_to m x = x) ∧
    (m = x → Filters.Mode.switch_to m x = Filters.Mode.Name) ∧
    Filters.Mode.switch_to (Filters.Mode.switch_to Filters.Mode.Name x) x =
      Filters.Mode.Name := by
  cases m <;> cases x <;> refine ⟨?_, ?_, ?_⟩ <;> decide

/-- Witness for C8 at a concrete mode pair. -/
theorem claim_C8_witness :
    Filters.Mode.switch_to Filters.Mode.Name Filters.Mode.Label = Filters.Mode.Label :=
  (claim_C8 Filters.Mode.Name Filters.Mode.Label).1 (by decide)

/-- C9: when reloading the configuration fails (file read error or
parse/deserialization error), the previously loaded catalog and both List
Managers are left unchanged: the whole state survives untouched. -/
theorem claim_C9 (st : StateCore) (content : Except String String)
    (parse : String → Except String Config) (e : String)
    (h : (load_config st content parse).2 = Except.error e) :
    (load_config st content parse).1 = st := by
  unfold load_config at *
  cases content with
  | error e' => rfl
  | ok text =>
    cases hp : parse text with
    | error e' => simp [hp]
    | ok cfg => simp [hp] at h

/-- Witness for C9: a failed read leaves the example state unchanged. -/
theorem claim_C9_witness :
    (load_config stExample (Except.error "io error")
        (fun _ => Except.error "parse")).1 = stExample :=
  claim_C9 stExample (Except.error "io error") (fun _ => Except.error "parse")
    "io error" rfl

/-- C1: the visited set is shared across the whole resolution call: expanding
any bookmark whose name is already in the visited set fails with the
circular-dependency error naming it; concretely, in the diamond catalog
where A references B and C and both reference D, resolving A fails with the
circular-dependency error naming D. -/
theorem claim_C1 :
    (∀ (cfg : Config) (fuel : Nat) (b : Bookmark) (processed : List String),
        b.name ∈ processed →
        gen_template_command cfg (fuel + 1) b processed =
          Except.error ("Circular dependency detected for bookmark '" ++ b.name ++ "'")) ∧
    gen_command diamondCfg false exA =
      Except.error "Circular dependency detected for bookmark 'D'" := by
  constructor
  · intro cfg fuel b processed h
    simp [gen_template_command, h]
  · rfl

/-- Witness for C1 at a concrete visited set. -/
theorem claim_C1_witness :
    gen_template_command diamondCfg 1 exD ["D"] =
      Except.error "Circular dependency detected for bookmark 'D'" := by
  have h := claim_C1.1 diamondCfg 0 exD ["D"] (by simp [exD])
  simpa [exD] using h

/-- C3: with `height = total_rows − reserved_rows` (truncated at 0), the
visible range is `[cursor + 1 − height, cursor]` when `cursor ≥ height` and
`[0, height − 1]` otherwise, capped by the filtered length during
iteration; the hidden-above figure is the range's begin and the hidden-below
figure is `len − 1 − end` when `len > end + 1` and 0 otherwise; the
renderer reserves `RESERVE_ROW_COUNT` rows; concretely `height = 3`,
`len = 10`, `cursor = 7` gives window `[5, 7]`, 5 hidden above and 2 hidden
below. -/
theorem claim_C3 (cursor len rows cols reserved height : Nat)
    (hh : height = rows - reserved) :
    ((cursor ≥ height → windowBounds cursor height = (cursor + 1 - height, cursor)) ∧
     (cursor < height → windowBounds cursor height = (0, height - 1)) ∧
     (∀ i, i ∈ visibleIndices len (windowBounds cursor height).1
             (windowBounds cursor height).2 ↔
           (windowBounds cursor height).1 ≤ i ∧
             i ≤ (windowBounds cursor height).2 ∧ i < len) ∧
     hiddenAbove (windowBounds cursor height).1 = (windowBounds cursor height).1 ∧
     (∀ e, hiddenBelow len e = if len > e + 1 then len - 1 - e else 0) ∧
     (main_menu_size rows cols).2.2.2 = rows - RESERVE_ROW_COUNT) ∧
    (windowBounds 7 3 = (5, 7) ∧ hiddenAbove 5 = 5 ∧ hiddenBelow 10 7 = 2) := by
  subst hh
  refine ⟨⟨?_, ?_, ?_, ?_, ?_, rfl⟩, by decide, by decide, by decide⟩
  · intro h
    simp [windowBounds, h]
  · intro h
    simp [windowBounds, Nat.not_le_of_lt h]
  · intro i
    simp only [visibleIndices, List.mem_filter, List.mem_range, Bool.and_eq_true,
      decide_eq_true_eq]
    tauto
  · unfold hiddenAbove rightCounter
    split <;> omega
  · intro e
    unfold hiddenBelow rightCounterWithMax rightCounter
    split_ifs <;> omega

/-- Witness for C3 at the spec's concrete viewport example. -/
theorem claim_C3_witness : windowBounds 7 3 = (7 + 1 - 3, 7) :=
  (claim_C3 7 10 8 0 5 3 rfl).1.1 (by decide)

/-- C2: a literal template line is rendered against the merged mapping
(global vars overlaid by the bookmark's vars, the bookmark winning) and
trimmed; a bookmark reference to an existing name `N` resolves a copy of
`N` whose vars are overlaid by the referencing bookmark's vars, and the
reference's resolved text is `N`'s entire joined result, consed as one
line; concretely `A = [bookmark::B]` with `vars = (y, z)` and
`B = [echo \x7b\x7by\x7d\x7d]` resolves to `echo z`. -/
theorem claim_C2 :
    (∀ (cfg : Config) (b : Bookmark) (template : String),
        gen_template_with_vars cfg template b =
          (render_template (extendVars cfg.vars b.vars) template).map
            (fun s => ⟨trimL s.data⟩)) ∧
    (∀ (resolve : Bookmark → List String → Except String (String × List String))
        (cfg : Config) (b : Bookmark) (cmd : String) (rest processed : List String)
        (depName : List Char) (dep : Bookmark) (s : String) (p1 : List String)
        (ls : List String) (p2 : List String),
        stripMarker bookmarkMarker cmd.data = some depName →
        cfg.bookmarks.find? (fun bb => bb.name = String.mk depName) = some dep →
        resolve { dep with vars := extendVars dep.vars b.vars } processed =
          Except.ok (s, p1) →
        gen_cmds resolve cfg b rest p1 = Except.ok (ls, p2) →
        gen_cmds resolve cfg b (cmd :: rest) processed = Except.ok (s :: ls, p2)) ∧
    (∀ (resolve : Bookmark → List String → Except String (String × List String))
        (cfg : Config) (b : Bookmark) (cmd : String) (rest processed : List String)
        (s : String) (ls : List String) (p2 : List String),
        stripMarker bookmarkMarker cmd.data = none →
        stripMarker cmdMarker cmd.data = none →
        gen_template_with_vars cfg cmd b = Except.ok s →
        gen_cmds resolve cfg b rest processed = Except.ok (ls, p2) →
        gen_cmds resolve cfg b (cmd :: rest) processed = Except.ok (s :: ls, p2)) ∧
    gen_command refCfg false refA = Except.ok "echo z" := by
  refine ⟨fun _ _ _ => rfl, ?_, ?_, rfl⟩
  · intro resolve cfg b cmd rest processed depName dep s p1 ls p2 h1 h2 h3 h4
    simp [gen_cmds, h1, h2, h3, h4]
  · intro resolve cfg b cmd rest processed s ls p2 h1 h2 h3 h4
    simp [gen_cmds, h1, h2, h3, h4]

/-- Witness for C2 at the concrete A/B reference example. -/
theorem claim_C2_witness :
    gen_cmds (gen_template_command refCfg 2) refCfg refA ["bookmark::B"] ["A"] =
      Except.ok (["echo z"], ["B", "A"]) :=
  claim_C2.2.1 (gen_template_command refCfg 2) refCfg refA "bookmark::B" [] ["A"]
    "B".data refB "echo z" ["B", "A"] [] ["B", "A"] rfl rfl rfl rfl

/-- C6: a successful resolution of bookmark `B` yields its resolved lines
joined with the separator `cmdSep` (space, backslash, newline, `&&`,
space), and `gen_command` appends a trailing newline exactly when the
effective auto-submit flag (`B.exec` if set, else the caller default) is
true. -/
theorem claim_C6 :
    (∀ (cfg : Config) (fuel : Nat) (b : Bookmark) (processed : List String)
        (lines p1 : List String),
        b.name ∉ processed →
        gen_cmds (gen_template_command cfg fuel) cfg b b.cmds (b.name :: processed) =
          Except.ok (lines, p1) →
        gen_template_command cfg (fuel + 1) b processed =
          Except.ok (cmdSep.intercalate lines, p1)) ∧
    (∀ (cfg : Config) (execDefault : Bool) (b : Bookmark) (s : String)
        (p1 : List String),
        gen_template_command cfg (cfg.bookmarks.length + 2) b [] = Except.ok (s, p1) →
        gen_command cfg execDefault b =
          Except.ok (if b.exec.getD execDefault then s ++ "\n" else s)) ∧
    cmdSep.data = [' ', '\\', '\n', '&', '&', ' '] := by
  refine ⟨?_, ?_, rfl⟩
  · intro cfg fuel b processed lines p1 h1 h2
    simp [gen_template_command, h1, h2]
  · intro cfg execDefault b s p1 h
    simp [gen_command, h]

/-- Witness for C6: two literal lines joined by the separator, with the
bookmark's own `exec = some true` forcing the trailing newline. -/
theorem claim_C6_witness :
    gen_command twoLineCfg false twoLineBk =
      Except.ok (if twoLineBk.exec.getD false
        then "echo a \\\n&& echo b" ++ "\n" else "echo a \\\n&& echo b") :=
  claim_C6.2.1 twoLineCfg false twoLineBk "echo a \\\n&& echo b" ["T"] rfl

/-! ## Deserialization lemmas -/

theorem dedupLoop_count_add_length (l : List Bookmark) :
    ∀ (uniq : List String) (i : Nat),
      (dedupLoop uniq i l).2.1 + (dedupLoop uniq i l).1.length = l.length := by
  induction l with
  | nil => intro uniq i; simp [dedupLoop]
  | cons bk rest ih =>
    intro uniq i
    by_cases hm : bk.name ∈ uniq
    · have := ih uniq (i + 1)
      simp only [dedupLoop, if_pos hm, List.length_cons]
      omega
    · have := ih (bk.name :: uniq) (i + 1)
      simp only [dedupLoop, if_neg hm, List.length_cons]
      omega

theorem dedupLoop_count_zero_iff (l : List Bookmark) :
    ∀ (uniq : List String) (i : Nat),
      (dedupLoop uniq i l).2.1 = 0 ↔
        ((l.map Bookmark.name).Nodup ∧ ∀ n ∈ l.map Bookmark.name, n ∉ uniq) := by
  induction l with
  | nil => intro uniq i; simp [dedupLoop]
  | cons bk rest ih =>
    intro uniq i
    by_cases hm : bk.name ∈ uniq
    · simp only [dedupLoop, if_pos hm, Nat.add_eq_zero, Nat.succ_ne_zero, and_false,
        false_iff, not_and, List.map_cons]
      intro _ hall
      exact hall bk.name (List.mem_cons_self _ _) hm
    · simp only [dedupLoop, if_neg hm]
      rw [ih (bk.name :: uniq) (i + 1)]
      simp only [List.map_cons, List.nodup_cons, List.mem_cons, not_or]
      constructor
      · rintro ⟨hnd, hall⟩
        refine ⟨⟨fun hmem => (hall bk.name hmem).1 rfl, hnd⟩, ?_⟩
        intro n hn
        rcases hn with hn | hn
        · subst hn; exact hm
        · exact (hall n hn).2
      · rintro ⟨⟨hnotin, hnd⟩, hall⟩
        refine ⟨hnd, ?_⟩
        intro n hn
        refine ⟨fun hne => ?_, hall n (Or.inr hn)⟩
        subst hne
        exact hnotin hn

theorem dedupLoop_length (l : List Bookmark) :
    ∀ (uniq : List String) (i : Nat),
      (dedupLoop uniq i l).1.length =
        ((l.map Bookmark.name).toFinset \ uniq.toFinset).card := by
  induction l with
  | nil => intro uniq i; simp [dedupLoop]
  | cons bk rest ih =>
    intro uniq i
    by_cases hm : bk.name ∈ uniq
    · simp only [dedupLoop, if_pos hm, List.map_cons, List.toFinset_cons]
      rw [ih uniq (i + 1), Finset.insert_sdiff_of_mem _ (List.mem_toFinset.mpr hm)]
    · simp only [dedupLoop, if_neg hm, List.map_cons, List.toFinset_cons,
        List.length_cons]
      rw [ih (bk.name :: uniq) (i + 1), List.toFinset_cons, Finset.sdiff_insert,
        Finset.insert_sdiff_of_not_mem _ (fun hc => hm (List.mem_toFinset.mp hc))]
      by_cases hx : bk.name ∈ (rest.map Bookmark.name).toFinset \ uniq.toFinset
      · rw [Finset.card_insert_of_mem hx, Finset.card_erase_add_one hx]
      · rw [Finset.card_insert_of_not_mem hx, Finset.erase_eq_of_not_mem hx]

theorem dedupLoop_kept (l : List Bookmark) :
    ∀ (uniq : List String) (i : Nat),
      (dedupLoop uniq i l).2.1 = 0 → (dedupLoop uniq i l).1 = assignIds i l := by
  induction l with
  | nil => intro uniq i _; simp [dedupLoop, assignIds]
  | cons bk rest ih =>
    intro uniq i h
    by_cases hm : bk.name ∈ uniq
    · simp only [dedupLoop, if_pos hm] at h
      exact absurd h (Nat.succ_ne_zero _)
    · simp only [dedupLoop, if_neg hm] at h ⊢
      simp only [assignIds]
      rw [ih (bk.name :: uniq) (i + 1) h]

theorem assignIds_map_id (l : List Bookmark) :
    ∀ i : Nat, (assignIds i l).map Bookmark.id = List.range' (i + 1) l.length := by
  induction l with
  | nil => intro i; simp [assignIds]
  | cons bk rest ih =>
    intro i
    simp only [assignIds, List.map_cons, List.length_cons, List.range'_succ]
    rw [ih (i + 1)]

/-- C4: catalog deserialization fails (whole catalog rejected) exactly when
some bookmark name occurs more than once, and the error message reports the
total number of duplicate entries, i.e. the number of occurrences beyond
each name's first. -/
theorem claim_C4 (l : List Bookmark) :
    ((∃ e, deserialize_bookmarks l = Except.error e) ↔ ¬ (l.map Bookmark.name).Nodup) ∧
    (¬ (l.map Bookmark.name).Nodup →
      deserialize_bookmarks l =
        Except.error ("Duplicate bookmarks names: " ++
          toString (l.length - (l.map Bookmark.name).toFinset.card))) := by
  have hz := dedupLoop_count_zero_iff l [] 0
  have ha := dedupLoop_count_add_length l [] 0
  have hl := dedupLoop_length l [] 0
  simp only [List.not_mem_nil, not_false_iff, implies_true, and_true] at hz
  by_cases h0 : (dedupLoop [] 0 l).2.1 = 0
  · have hde : deserialize_bookmarks l = Except.ok (dedupLoop [] 0 l).1 := by
      simp [deserialize_bookmarks, h0]
    have hnd : (l.map Bookmark.name).Nodup := hz.mp h0
    constructor
    · simp [hde, hnd]
    · intro hcon
      exact absurd hnd hcon
  · have hcount : (dedupLoop [] 0 l).2.1 =
        l.length - (l.map Bookmark.name).toFinset.card := by
      rw [List.toFinset_nil, Finset.sdiff_empty] at hl
      omega
    have hde : deserialize_bookmarks l =
        Except.error ("Duplicate bookmarks names: " ++
          toString (l.length - (l.map Bookmark.name).toFinset.card)) := by
      rw [← hcount]
      simp [deserialize_bookmarks, Nat.pos_of_ne_zero h0]
    have hnnd : ¬ (l.map Bookmark.name).Nodup := fun hnd => h0 (hz.mpr hnd)
    exact ⟨by simp [hde, hnnd], fun _ => hde⟩

/-- Witness for C4: a list with one repeated name is rejected with count 1. -/
theorem claim_C4_witness :
    deserialize_bookmarks [exA, exB, exA] =
      Except.error ("Duplicate bookmarks names: " ++
        toString ([exA, exB, exA].length -
          ([exA, exB, exA].map Bookmark.name).toFinset.card)) :=
  (claim_C4 [exA, exB, exA]).2 (by simp [exA, exB])

/-! ## Label-derivation lemmas -/

theorem firstOccur_filter (p : String → Bool) : ∀ l : List String,
    firstOccur (l.filter p) = (firstOccur l).filter p := by
  intro l
  induction l with
  | nil => rfl
  | cons m rest ih =>
    by_cases hp : p m = true
    · rw [List.filter_cons_of_pos hp, firstOccur, firstOccur, ih,
        List.filter_cons_of_pos hp, List.filter_filter, List.filter_filter]
      have hfun : (fun a => decide (a ≠ m) && p a) = (fun a => p a && decide (a ≠ m)) := by
        funext a
        exact Bool.and_comm _ _
      rw [hfun]
    · rw [List.filter_cons_of_neg hp, firstOccur, ih, List.filter_cons_of_neg hp,
        List.filter_filter]
      have hfun : (fun a => p a && decide (a ≠ m)) = p := by
        funext a
        by_cases ham : a = m
        · subst ham
          simp [hp]
        · simp [ham]
      rw [hfun]

theorem firstOccur_nodup : ∀ l : List String, (firstOccur l).Nodup := by
  intro l
  induction l with
  | nil => exact List.nodup_nil
  | cons n rest ih =>
    simp only [firstOccur, List.nodup_cons]
    constructor
    · intro hmem
      have := List.of_mem_filter hmem
      simp at this
    · exact ih.filter _

theorem buildLabelsLoop_names : ∀ (names seen : List String) (k : Nat),
    (buildLabelsLoop seen k names).map Label.name =
      firstOccur (names.filter (fun m => m ∉ seen)) := by
  intro names
  induction names with
  | nil => intro seen k; rfl
  | cons n rest ih =>
    intro seen k
    by_cases hm : n ∈ seen
    · simp only [buildLabelsLoop, if_pos hm, List.filter_cons]
      have hd : (decide (n ∉ seen)) = false := by simp [hm]
      rw [hd]
      simp only [Bool.false_eq_true, if_false]
      exact ih seen k
    · simp only [buildLabelsLoop, if_neg hm, List.map_cons, List.filter_cons]
      have hd : (decide (n ∉ seen)) = true := by simp [hm]
      rw [hd]
      simp only [if_true, firstOccur]
      congr 1
      rw [ih (n :: seen) (k + 1)]
      have hsplit : rest.filter (fun m => m ∉ n :: seen) =
          (rest.filter (fun m => m ∉ seen)).filter (fun m => m ≠ n) := by
        rw [List.filter_filter]
        apply List.filter_congr
        intro a _
        simp [List.mem_cons, not_or, Bool.and_comm]
      rw [hsplit, firstOccur_filter]

theorem buildLabelsLoop_ids : ∀ (names seen : List String) (k : Nat),
    (buildLabelsLoop seen k names).map Label.id =
      List.range' k (buildLabelsLoop seen k names).length := by
  intro names
  induction names with
  | nil => intro seen k; rfl
  | cons n rest ih =>
    intro seen k
    by_cases hm : n ∈ seen
    · simp only [buildLabelsLoop, if_pos hm]
      exact ih seen k
    · simp only [buildLabelsLoop, if_neg hm, List.map_cons, List.length_cons,
        List.range'_succ]
      rw [ih (n :: seen) (k + 1)]

/-- C10: a successfully deserialized catalog of `n` bookmarks carries ids
`1..n` in order (position `i` receives id `i + 1`), and the derived label
list contains each distinct label name exactly once, in first-occurrence
order across bookmarks, with ids assigned sequentially from 1. -/
theorem claim_C10 :
    (∀ l res : List Bookmark, deserialize_bookmarks l = Except.ok res →
        res = assignIds 0 l ∧ res.map Bookmark.id = List.range' 1 l.length) ∧
    (∀ bs : List Bookmark,
        (buildLabels bs).map Label.name =
          firstOccur (bs.map (fun b => b.labels)).flatten ∧
        ((buildLabels bs).map Label.name).Nodup ∧
        (buildLabels bs).map Label.id = List.range' 1 (buildLabels bs).length) := by
  constructor
  · intro l res hde
    by_cases h0 : (dedupLoop [] 0 l).2.1 = 0
    · simp only [deserialize_bookmarks, h0, Nat.lt_irrefl, if_false] at hde
      have hres : res = (dedupLoop [] 0 l).1 := by
        cases hde
        rfl
      have hkept := dedupLoop_kept l [] 0 h0
      have hassign : res = assignIds 0 l := hres.trans hkept
      refine ⟨hassign, ?_⟩
      rw [hassign, assignIds_map_id]
    · simp [deserialize_bookmarks, Nat.pos_of_ne_zero h0] at hde
  · intro bs
    refine ⟨?_, ?_, ?_⟩
    · rw [buildLabels, buildLabelsLoop_names]
      congr 1
      apply List.filter_eq_self.mpr
      intro a _
      simp
    · rw [buildLabels, buildLabelsLoop_names]
      exact firstOccur_nodup _
    · rw [buildLabels, buildLabelsLoop_ids]

/-- Witness for C10 at a concrete duplicate-free catalog. -/
theorem claim_C10_witness :
    assignIds 0 [exA, exB] = [{ exA with id := 1 }, { exB with id := 2 }] ∧
    ([{ exA with id := 1 }, { exB with id := 2 }] : List Bookmark).map Bookmark.id =
      List.range' 1 2 := by
  have h := claim_C10.1 [exA, exB]
    [{ exA with id := 1 }, { exB with id := 2 }] (by rfl)
  exact ⟨h.1.symm, h.2⟩

/-- C5: with non-empty filter text, Name mode keeps a bookmark exactly when
its (optionally case-normalized) name equals the filter or contains it as a
substring, while Label mode keeps it exactly when the filter equals (after
optional case normalization) at least one of its labels — never by
substring; concretely the label "dev" matches filter "dev" but not "de" in
Label mode, while "de" matches the name "deploy" in Name mode. -/
theorem claim_C5 (ign : Bool) (filter : String) (b : Bookmark) (hne : filter ≠ "") :
    (Filters.BookmarkFilter.keep ⟨Filters.Mode.Name, filter, ign⟩ b = true ↔
      ((if ign then lowerStr b.name else b.name) =
          (if ign then lowerStr filter else filter) ∨
       containsSub (if ign then lowerStr b.name else b.name).data
         (if ign then lowerStr filter else filter).data = true)) ∧
    (Filters.BookmarkFilter.keep ⟨Filters.Mode.Label, filter, ign⟩ b = true ↔
      ∃ l ∈ b.labels,
        (if ign then lowerStr l else l) = (if ign then lowerStr filter else filter)) ∧
    (Filters.BookmarkFilter.keep ⟨Filters.Mode.Label, "dev", true⟩ devBookmark = true ∧
     Filters.BookmarkFilter.keep ⟨Filters.Mode.Label, "de", true⟩ devBookmark = false ∧
     Filters.BookmarkFilter.keep ⟨Filters.Mode.Name, "de", true⟩ devBookmark = true) := by
  refine ⟨?_, ?_, rfl, rfl, rfl⟩
  · cases ign <;>
      simp [Filters.BookmarkFilter.keep, Filters.BookmarkFilter.keep_by_name,
        Filters.BookmarkFilter.get_filter, lowerStr_idem]
  · cases ign
    · simp only [Filters.BookmarkFilter.keep, Filters.BookmarkFilter.keep_by_label,
        Filters.BookmarkFilter.get_filter, Bool.false_eq_true, if_false,
        String.isEmpty_iff, hne, List.any_eq_true, decide_eq_true_eq]
      constructor <;> rintro ⟨l, h1, h2⟩ <;> exact ⟨l, h1, h2.symm⟩
    · simp only [Filters.BookmarkFilter.keep, Filters.BookmarkFilter.keep_by_label,
        Filters.BookmarkFilter.get_filter, if_true, String.isEmpty_iff,
        lowerStr_eq_empty_iff, hne, lowerStr_idem]
      rw [if_neg not_false]
      simp only [List.any_eq_true, decide_eq_true_eq]
      constructor <;> rintro ⟨l, h1, h2⟩ <;> exact ⟨l, h1, h2.symm⟩

/-- Witness for C5 at the concrete dev-label bookmark. -/
theorem claim_C5_witness :
    Filters.BookmarkFilter.keep ⟨Filters.Mode.Label, "dev", true⟩ devBookmark = true :=
  (claim_C5 true "dev" devBookmark (by decide)).2.2.1

end ZB
